import Mathlib

/-!
Verification development for the Dimpressionist session/refinement
orchestration layer.

The repository ships the web front end (`src/web/static/js/api-client.js`
and the main application script) together with design documents.  The
Python backend (SessionEngine, PromptRewriter, HistoryStore) is not part
of the shipped sources, so those components are modelled from the
specification; every such definition is marked `Modelled from the spec:`.
All front-end behaviour (API request bodies, the generate/refine guard,
the WebSocket reconnect logic and the event fan-out) is embedded directly
from the JavaScript sources.
-/

namespace Dimpressionist

/-! ### Character-list utilities used by the prompt rewriter model -/

/-- Lower-case a single ASCII character. -/
def lowerChar (c : Char) : Char :=
  if 'A' ≤ c ∧ c ≤ 'Z' then Char.ofNat (c.toNat + 32) else c

/-- Lower-case a list of characters (case-insensitive matching). -/
def lowerL (l : List Char) : List Char := l.map lowerChar

/-- Remove a leading pattern from a character list, if present. -/
def chopStart : List Char → List Char → Option (List Char)
  | [], l => some l
  | _ :: _, [] => none
  | a :: p, b :: l => if a = b then chopStart p l else none

/-- Remove a trailing pattern from a character list, if present. -/
def chopEnd (s l : List Char) : Option (List Char) :=
  (chopStart s.reverse l.reverse).map List.reverse

/-- Does the list end with the given tail? -/
def hasTail (s l : List Char) : Bool := (chopStart s.reverse l.reverse).isSome

/-- Does the list begin with the given head? -/
def hasStart (s l : List Char) : Bool := (chopStart s l).isSome

/-- Push a character onto the first chunk of a chunk list. -/
def consHead (a : Char) : List (List Char) → List (List Char)
  | [] => [[a]]
  | w :: ws => (a :: w) :: ws

/-- Split a character list at every occurrence of the separator. -/
def splitChar (c : Char) : List Char → List (List Char)
  | [] => [[]]
  | a :: rest => if a = c then [] :: splitChar c rest else consHead a (splitChar c rest)

/-- Join chunks with a single separator character. -/
def joinChar (c : Char) : List (List Char) → List Char
  | [] => []
  | [w] => w
  | w :: ws => w ++ c :: joinChar c ws

/-- Is the first chunk list a prefix of the second? -/
def listStart : List (List Char) → List (List Char) → Bool
  | [], _ => true
  | _ :: _, [] => false
  | x :: xs, y :: ys => if x = y then listStart xs ys else false

/-- Index of the first position where `pat` occurs as a consecutive run. -/
def findSub (pat : List (List Char)) : List (List Char) → Option Nat
  | [] => if listStart pat [] then some 0 else none
  | w :: ws => if listStart pat (w :: ws) then some 0 else (findSub pat ws).map (· + 1)

/-- Insert a chunk before position `i`. -/
def insertIdxL : Nat → List Char → List (List Char) → List (List Char)
  | 0, y, ws => y :: ws
  | _ + 1, y, [] => [y]
  | i + 1, y, w :: ws => w :: insertIdxL i y ws

/-- Drop everything up to and including the first comma. -/
def commaChop : List Char → Option (List Char)
  | [] => none
  | c :: rest => if c = ',' then some rest else commaChop rest

/-- Drop the final comma-separated clause (the text from the last comma on). -/
def dropLastClause (l : List Char) : Option (List Char) :=
  (commaChop l.reverse).map List.reverse

/-- Split at the first occurrence of a (multi-character) separator. -/
def splitAtSub (sep : List Char) : List Char → Option (List Char × List Char)
  | [] => (chopStart sep []).map (fun r => (([] : List Char), r))
  | c :: rest =>
    match chopStart sep (c :: rest) with
    | some after => some ([], after)
    | none => (splitAtSub sep rest).map (fun pr => (c :: pr.1, pr.2))

/-- Replace the first occurrence of `x` by `y`. -/
def replaceSub (x y p : List Char) : List Char :=
  match splitAtSub x p with
  | some pr => pr.1 ++ y ++ pr.2
  | none => p

/-- Drop leading spaces. -/
def trimSp (l : List Char) : List Char := l.dropWhile (· = ' ')

/-! ### PromptRewriter

Modelled from the spec: the rule-based prompt-rewrite engine
(`src/core/prompt_interpreter.py` is not among the shipped sources; only
its design documents and callers are).  The spec fixes the contract
`rewrite(currentPrompt, modification) -> newPrompt`, pure and total, with
seven rules tried in order on the lower-cased modification text. -/

/-- Modelled from the spec: the recognized color terms of rule 1. -/
def colorWords : List (List Char) :=
  ["red".toList, "blue".toList, "green".toList, "yellow".toList, "orange".toList,
   "purple".toList, "pink".toList, "black".toList, "white".toList, "brown".toList,
   "gray".toList, "grey".toList, "cyan".toList, "magenta".toList]

/-- Modelled from the spec: rule 1 matcher for "make (the )?X Y" where the
final word Y is a recognized color term; returns `(X, Y)`. -/
def colorMatch (lm : List Char) : Option (List Char × List Char) :=
  match chopStart "make ".toList lm with
  | none => none
  | some r0 =>
    let r := match chopStart "the ".toList r0 with
      | some r1 => r1
      | none => r0
    let ws := splitChar ' ' r
    if ws.getLastD [] ∈ colorWords ∧ 2 ≤ ws.length then
      some (joinChar ' ' ws.dropLast, ws.getLastD [])
    else none

/-- Modelled from the spec: rule 1 application — replace the color token
immediately preceding the first occurrence of X with Y (inserting Y before
X when no color precedes); when X is absent, append the colored object. -/
def colorApply (p x y : List Char) : List Char :=
  let pws := splitChar ' ' p
  match findSub (splitChar ' ' x) pws with
  | none => p ++ ", ".toList ++ y ++ [' '] ++ x
  | some i =>
    if 1 ≤ i ∧ pws.getD (i - 1) [] ∈ colorWords then
      joinChar ' ' (pws.set (i - 1) y)
    else
      joinChar ' ' (insertIdxL i y pws)

/-- Modelled from the spec: rule 2 matcher for "add X". -/
def addMatch (lm : List Char) : Option (List Char) := chopStart "add ".toList lm

/-- Modelled from the spec: rule 3 matcher for "change to Y style" or
"make it Y style".  Y is a single comma-free nonempty phrase (clauses are
comma-delimited throughout the rewrite rules). -/
def styleMatch (lm : List Char) : Option (List Char) :=
  match
    (match chopStart "change to ".toList lm with
     | some r => some r
     | none => chopStart "make it ".toList lm) with
  | none => none
  | some r =>
    match chopEnd " style".toList r with
    | none => none
    | some y => if y ≠ [] ∧ ',' ∉ y then some y else none

/-- Modelled from the spec: remove a prior "... style" suffix clause if
present, so that style directives do not accumulate. -/
def stripStyle (p : List Char) : List Char :=
  if hasTail " style".toList p then
    match dropLastClause p with
    | some q => q
    | none => p
  else p

/-- Modelled from the spec: rule 3 application — append ", Y style",
replacing a prior style clause. -/
def styleApply (p y : List Char) : List Char :=
  stripStyle p ++ ", ".toList ++ y ++ " style".toList

/-- Modelled from the spec: rule 4 matcher for "make the X a Y". -/
def objMatch (lm : List Char) : Option (List Char × List Char) :=
  match chopStart "make the ".toList lm with
  | none => none
  | some r =>
    match splitAtSub " a ".toList r with
    | none => none
    | some pr => if pr.1 ≠ [] ∧ pr.2 ≠ [] then some pr else none

/-- Modelled from the spec: rule 5 matcher for "change background to X"
or "background X". -/
def bgMatch (lm : List Char) : Option (List Char) :=
  match chopStart "change background to ".toList lm with
  | some x => some x
  | none => chopStart "background ".toList lm

/-- Modelled from the spec: rule 5 application — replace an existing
"background" clause if present, else append ", background X". -/
def bgApply (p x : List Char) : List Char :=
  let cs := splitChar ',' p
  if cs.any (fun c => hasStart "background".toList (trimSp c)) then
    joinChar ',' (cs.map (fun c =>
      if hasStart "background".toList (trimSp c) then ' ' :: ("background ".toList ++ x) else c))
  else p ++ ", background ".toList ++ x

/-- Modelled from the spec: rule 6 matcher for "remove X". -/
def removeMatch (lm : List Char) : Option (List Char) := chopStart "remove ".toList lm

/-- Result of one rewrite: the new prompt and the low-severity warning
flag emitted by the removal rule. -/
structure RewriteOut where
  prompt : List Char
  warn : Bool
deriving DecidableEq

/-- Modelled from the spec: the ordered rule evaluation of the
PromptRewriter (first match wins, case-insensitive on the modification;
the default rule appends the modification verbatim). -/
def rewriteL (p m : List Char) : RewriteOut :=
  let lm := lowerL m
  match colorMatch lm with
  | some xy => ⟨colorApply p xy.1 xy.2, false⟩
  | none =>
    match addMatch lm with
    | some x => ⟨p ++ ", ".toList ++ x, false⟩
    | none =>
      match styleMatch lm with
      | some y => ⟨styleApply p y, false⟩
      | none =>
        match objMatch lm with
        | some xy => ⟨replaceSub xy.1 xy.2 p, false⟩
        | none =>
          match bgMatch lm with
          | some x => ⟨bgApply p x, false⟩
          | none =>
            match removeMatch lm with
            | some x => ⟨p ++ ", no ".toList ++ x, true⟩
            | none => ⟨p ++ ", ".toList ++ m, false⟩

/-- Modelled from the spec: string-level rewrite contract
`rewrite(currentPrompt, modification) -> (newPrompt, warningFlag)`. -/
def interpret (currentPrompt modification : String) : String × Bool :=
  let r := rewriteL currentPrompt.toList modification.toList
  (String.mk r.prompt, r.warn)

/-! ### SessionEngine and HistoryStore

Modelled from the spec: the session engine and the history store are part
of the Python backend, which is not among the shipped sources (only the
web front end and the design documents are).  The model follows the
spec's state machine (`IDLE`/`GENERATING`), its record shape, the
validation ranges of §6 and the operation contracts of §4.2/§4.3.  The
external generation collaborator is passed in as an explicit outcome
argument, so one call models the whole request/completion round trip;
states with status `generating` describe a session with a generation in
flight. -/

/-- Record kind: a fresh generation or a refinement of a prior record. -/
inductive RecordKind where
  | new
  | refinement
deriving DecidableEq

/-- Modelled from the spec: a GenerationRecord (immutable once created).
`createdAt` is an observability timestamp owned by the clock and is
omitted from the model. -/
structure GenerationRecord where
  id : Nat
  kind : RecordKind
  prompt : String
  modification : Option String
  parentId : Option Nat
  seed : Nat
  steps : Nat
  guidanceScale : ℚ
  strength : Option ℚ
  imageRef : String
  durationMs : Nat
deriving DecidableEq

/-- Engine status: at most one generation in flight per session. -/
inductive EngStatus where
  | idle
  | generating
deriving DecidableEq

/-- Modelled from the spec: the per-session state (append-only records,
current pointer, engine status, fresh-id counter). -/
structure EngineState where
  records : List GenerationRecord
  currentId : Option Nat
  status : EngStatus
  nextId : Nat
deriving DecidableEq

/-- Modelled from the spec: the error taxonomy of §7. -/
inductive EngError where
  | invalidParameters
  | noCurrentImage
  | busy
  | modelError (code : String) (message : String)
  | cancelled
  | notFound
deriving DecidableEq

/-- Outcome of one external collaborator invocation. -/
inductive CollabOutcome where
  | ok (imageRef : String) (seedUsed : Nat) (durationMs : Nat)
  | fail (code : String) (message : String)
deriving DecidableEq

/-- Parameters of a `generateNew` request. -/
structure GenParams where
  steps : Nat
  guidanceScale : ℚ
  seed : Option Nat
  width : Nat
  height : Nat
deriving DecidableEq

/-- Parameters of a `refine` request.  Mirroring the refine request body
built by `APIClient.refine` (modification, strength, steps,
guidance_scale), there is no seed field: a refinement cannot carry an
independent seed. -/
structure RefineParams where
  strength : ℚ
  steps : Nat
  guidanceScale : ℚ
deriving DecidableEq

/-- Modelled from the spec: §6 validation ranges for `generateNew`
(prompt length 1–500, steps 10–100, guidanceScale 1.0–5.0). -/
def validNewParams (prompt : String) (p : GenParams) : Prop :=
  1 ≤ prompt.length ∧ prompt.length ≤ 500 ∧
  10 ≤ p.steps ∧ p.steps ≤ 100 ∧
  (1 : ℚ) ≤ p.guidanceScale ∧ p.guidanceScale ≤ 5

instance (prompt : String) (p : GenParams) : Decidable (validNewParams prompt p) := by
  unfold validNewParams; infer_instance

/-- Modelled from the spec: §6 validation ranges for `refine`
(modification length 1–500, steps 10–100, guidanceScale 1.0–5.0,
strength 0.1–1.0). -/
def validRefineParams (modification : String) (p : RefineParams) : Prop :=
  1 ≤ modification.length ∧ modification.length ≤ 500 ∧
  10 ≤ p.steps ∧ p.steps ≤ 100 ∧
  (1 : ℚ) ≤ p.guidanceScale ∧ p.guidanceScale ≤ 5 ∧
  (0.1 : ℚ) ≤ p.strength ∧ p.strength ≤ 1

instance (modification : String) (p : RefineParams) :
    Decidable (validRefineParams modification p) := by
  unfold validRefineParams; infer_instance

/-- Look up the record the session's current pointer refers to. -/
def currentRecord (s : EngineState) : Option GenerationRecord :=
  match s.currentId with
  | none => none
  | some i => s.records.find? (fun r => r.id = i)

/-- Modelled from the spec: `generateNew(prompt, params)` — busy check,
parameter validation (errors are returned with the state untouched), then
the external text-to-image call; on success a `NEW` record is appended
and made current, on collaborator failure nothing is appended. -/
def generateNew (s : EngineState) (prompt : String) (p : GenParams)
    (res : CollabOutcome) : EngineState × Except EngError GenerationRecord :=
  if s.status = EngStatus.generating then (s, Except.error EngError.busy)
  else if validNewParams prompt p then
    match res with
    | CollabOutcome.ok imageRef seedUsed durationMs =>
      let rec0 : GenerationRecord :=
        { id := s.nextId, kind := RecordKind.new, prompt := prompt,
          modification := none, parentId := none,
          seed := p.seed.getD seedUsed, steps := p.steps,
          guidanceScale := p.guidanceScale, strength := none,
          imageRef := imageRef, durationMs := durationMs }
      ({ records := s.records ++ [rec0], currentId := some rec0.id,
         status := EngStatus.idle, nextId := s.nextId + 1 },
       Except.ok rec0)
    | CollabOutcome.fail code msg =>
      ({ s with status := EngStatus.idle }, Except.error (EngError.modelError code msg))
  else (s, Except.error EngError.invalidParameters)

/-- Modelled from the spec: `refine(modification, params)` — busy check,
current-record precondition (`NoCurrentImage`), parameter validation,
then the img2img call with `newPrompt = rewrite(current.prompt,
modification)` and the parent's seed reused (seed stability is a hard
invariant: `RefineParams` has no seed field to override it). -/
def refine (s : EngineState) (modification : String) (p : RefineParams)
    (res : CollabOutcome) : EngineState × Except EngError GenerationRecord :=
  if s.status = EngStatus.generating then (s, Except.error EngError.busy)
  else
    match currentRecord s with
    | none => (s, Except.error EngError.noCurrentImage)
    | some cur =>
      if validRefineParams modification p then
        match res with
        | CollabOutcome.ok imageRef _ durationMs =>
          let rec0 : GenerationRecord :=
            { id := s.nextId, kind := RecordKind.refinement,
              prompt := (interpret cur.prompt modification).1,
              modification := some modification, parentId := some cur.id,
              seed := cur.seed, steps := p.steps,
              guidanceScale := p.guidanceScale, strength := some p.strength,
              imageRef := imageRef, durationMs := durationMs }
          ({ records := s.records ++ [rec0], currentId := some rec0.id,
             status := EngStatus.idle, nextId := s.nextId + 1 },
           Except.ok rec0)
        | CollabOutcome.fail code msg =>
          ({ s with status := EngStatus.idle },
           Except.error (EngError.modelError code msg))
      else (s, Except.error EngError.invalidParameters)

/-- Modelled from the spec: `clear() -> countDeleted` — empties the
records, resets the current pointer and returns the prior record count. -/
def clearSession (s : EngineState) : EngineState × Nat :=
  ({ s with records := [], currentId := none }, s.records.length)

/-! ### APIClient request bodies (embedded from
`src/web/static/js/api-client.js`) -/

/-- Optional numeric parameters as passed to the API client; `some 0`
models the JavaScript number `0`, `none` an absent field. -/
structure ClientParams where
  steps : Option Int
  guidanceScale : Option ℚ
  strength : Option ℚ
  seed : Option Int
  width : Option Int
  height : Option Int
deriving DecidableEq

/-- JavaScript `v || d` on an optional number: `0` (falsy) and absence
both yield the default. -/
def jsIntOr (v : Option Int) (d : Int) : Int :=
  match v with
  | some x => if x = 0 then d else x
  | none => d

/-- JavaScript `v || d` on an optional rational-valued number. -/
def jsRatOr (v : Option ℚ) (d : ℚ) : ℚ :=
  match v with
  | some x => if x = 0 then d else x
  | none => d

/-- JavaScript `v || null` on an optional number: `0` becomes `null`. -/
def jsSeedOr (v : Option Int) : Option Int :=
  match v with
  | some x => if x = 0 then none else some x
  | none => none

/-- Body of `POST /generate/new` as built by `APIClient.generateNew`. -/
structure GenerateRequestBody where
  prompt : String
  steps : Int
  guidance_scale : ℚ
  seed : Option Int
  width : Int
  height : Int
deriving DecidableEq

/-- Body of `POST /generate/refine` as built by `APIClient.refine`; note
the absence of any seed field. -/
structure RefineRequestBody where
  modification : String
  strength : ℚ
  steps : Int
  guidance_scale : ℚ
deriving DecidableEq

/-- `APIClient.generateNew(prompt, params)` request body. -/
def generateNewBody (prompt : String) (p : ClientParams) : GenerateRequestBody :=
  { prompt := prompt,
    steps := jsIntOr p.steps 28,
    guidance_scale := jsRatOr p.guidanceScale (3.5 : ℚ),
    seed := jsSeedOr p.seed,
    width := jsIntOr p.width 1024,
    height := jsIntOr p.height 1024 }

/-- `APIClient.refine(modification, params)` request body. -/
def refineBody (modification : String) (p : ClientParams) : RefineRequestBody :=
  { modification := modification,
    strength := jsRatOr p.strength (0.6 : ℚ),
    steps := jsIntOr p.steps 28,
    guidance_scale := jsRatOr p.guidanceScale (3.5 : ℚ) }

/-! ### Main application (embedded from the shipped application script) -/

/-- The slice of an image record the front end keeps. -/
structure ImageData where
  id : Nat
  image_url : String
deriving DecidableEq

/-- Front-end application state (`App.state`); DOM-only fields are
omitted. -/
structure AppState where
  promptInput : String
  isGenerating : Bool
  currentImage : Option ImageData
  history : List ImageData
  params : ClientParams
deriving DecidableEq

/-- A request the front end dispatches through the API client. -/
inductive ClientRequest where
  | generateNew (prompt : String) (params : ClientParams)
  | refine (modification : String) (params : ClientParams)
deriving DecidableEq

/-- Is the dispatched request a refine request? -/
def isRefineReq : Option ClientRequest → Bool
  | some (ClientRequest.refine _ _) => true
  | _ => false

/-- `App.handleGenerate`: trim the prompt; bail out (no request, no state
change) when the prompt is empty or a generation is already in flight;
otherwise mark generating and dispatch refine when a current image
exists, else a new generation. -/
def handleGenerate (st : AppState) : AppState × Option ClientRequest :=
  let prompt := st.promptInput.trim
  if prompt = "" ∨ st.isGenerating = true then (st, none)
  else
    ({ st with isGenerating := true },
     some (match st.currentImage with
           | some _ => ClientRequest.refine prompt st.params
           | none => ClientRequest.generateNew prompt st.params))

/-- `App.handleClear` (success path): the current image and the history
are reset after `POST /session/clear`. -/
def handleClear (st : AppState) : AppState :=
  { st with currentImage := none, history := [] }

/-! ### WSHandler (embedded from `src/web/static/js/api-client.js`) -/

/-- Outcome of delivering one event to one observer callback. -/
inductive EmitResult where
  | delivered
  | errorLogged (message : String)
deriving DecidableEq

/-- An observer callback: it either consumes the event or throws. -/
def WsCallback (α : Type) : Type := α → Except String Unit

/-- One iteration of `WSHandler._emit`'s loop: the callback invocation is
wrapped in try/catch, so a thrown error is logged and never rethrown. -/
def attemptCallback {α : Type} (cb : WsCallback α) (d : α) : EmitResult :=
  match cb d with
  | Except.ok _ => EmitResult.delivered
  | Except.error e => EmitResult.errorLogged e

/-- `WSHandler._emit`: deliver the event to every registered callback in
order, logging failures. -/
def wsEmit {α : Type} (cbs : List (WsCallback α)) (d : α) : List EmitResult :=
  cbs.map (fun cb => attemptCallback cb d)

/-- `maxReconnectAttempts` from the `WSHandler` constructor. -/
def wsMaxReconnectAttempts : Nat := 5

/-- `reconnectDelay` (milliseconds) from the `WSHandler` constructor. -/
def wsReconnectDelay : Nat := 1000

/-- The reconnect-relevant slice of `WSHandler`'s state. -/
structure WSState where
  reconnectAttempts : Nat
deriving DecidableEq

/-- A message the client sends over the socket. -/
inductive WsClientMsg where
  | subscribe (channel : String)
  | ping
deriving DecidableEq

/-- `WSHandler._attemptReconnect`: give up once the attempt counter has
reached the maximum; otherwise increment it and schedule a reconnect
after `reconnectDelay * 2 ^ (attempts - 1)` milliseconds. -/
def attemptReconnect (s : WSState) : WSState × Option Nat :=
  if wsMaxReconnectAttempts ≤ s.reconnectAttempts then (s, none)
  else
    let a := s.reconnectAttempts + 1
    ({ reconnectAttempts := a }, some (wsReconnectDelay * 2 ^ (a - 1)))

/-- `socket.onopen`: reset the attempt counter and re-send the subscribe
message for the progress channel. -/
def wsOnOpen (s : WSState) : WSState × List WsClientMsg :=
  ({ s with reconnectAttempts := 0 }, [WsClientMsg.subscribe "generation_progress"])

/-- Connection-level events driving the reconnect state. -/
inductive WSEvent where
  | opened
  | closed
deriving DecidableEq

/-- One step of the reconnect state machine: `onopen` resets, `onclose`
runs `_attemptReconnect`. -/
def wsStep (s : WSState) : WSEvent → WSState
  | WSEvent.opened => (wsOnOpen s).1
  | WSEvent.closed => (attemptReconnect s).1

/-- States of the handler reachable from a fresh `WSHandler`. -/
inductive WsReachable : WSState → Prop
  | init : WsReachable ⟨0⟩
  | step (s : WSState) (e : WSEvent) : WsReachable s → WsReachable (wsStep s e)

/-! ### Concrete states used by the witness theorems -/

/-- Client parameters as the front end keeps them by default. -/
def cpDefault : ClientParams :=
  { steps := some 28, guidanceScale := some (3.5 : ℚ), strength := some (0.6 : ℚ),
    seed := none, width := none, height := none }

/-- A first `NEW` record, as produced by a successful `generateNew`. -/
def recNew0 : GenerationRecord :=
  { id := 0, kind := RecordKind.new, prompt := "a cat", modification := none,
    parentId := none, seed := 42, steps := 28, guidanceScale := (3 : ℚ),
    strength := none, imageRef := "img1.png", durationMs := 500 }

/-- A session holding `recNew0` as its current record, idle. -/
def sesOne : EngineState :=
  { records := [recNew0], currentId := some 0, status := EngStatus.idle, nextId := 1 }

/-- An empty idle session. -/
def sesEmpty : EngineState :=
  { records := [], currentId := none, status := EngStatus.idle, nextId := 0 }

/-- A session with a generation in flight. -/
def sesBusy : EngineState :=
  { records := [recNew0], currentId := some 0, status := EngStatus.generating, nextId := 1 }

/-- In-range refine parameters. -/
def rpOk : RefineParams := { strength := (1 : ℚ), steps := 28, guidanceScale := (3 : ℚ) }

/-- Out-of-range generate parameters (steps below 10). -/
def gpBad : GenParams :=
  { steps := 5, guidanceScale := (3 : ℚ), seed := none, width := 1024, height := 1024 }

/-- Out-of-range refine parameters (strength above 1.0, steps below 10). -/
def rpBad : RefineParams := { strength := (2 : ℚ), steps := 5, guidanceScale := (3 : ℚ) }

/-- The record the model appends for `refine sesOne "add a hat" rpOk`. -/
def recRef1 : GenerationRecord :=
  { id := 1, kind := RecordKind.refinement, prompt := "a cat, a hat",
    modification := some "add a hat", parentId := some 0, seed := 42, steps := 28,
    guidanceScale := (3 : ℚ), strength := some (1 : ℚ), imageRef := "img2.png",
    durationMs := 800 }

/-- The session after that refinement. -/
def sesTwo : EngineState :=
  { records := [recNew0, recRef1], currentId := some 1, status := EngStatus.idle, nextId := 2 }

/-- A front-end state with a generation in flight. -/
def appBusy : AppState :=
  { promptInput := "a dog", isGenerating := true, currentImage := none,
    history := [], params := cpDefault }

/-- A front-end state on an empty session. -/
def appEmpty : AppState :=
  { promptInput := "a dog", isGenerating := false, currentImage := none,
    history := [], params := cpDefault }

/-- Client parameters with the legitimate numeric value 0 everywhere the
falsy coercion can strike. -/
def cpSeedZero : ClientParams :=
  { steps := some 0, guidanceScale := some 0, strength := some (0.6 : ℚ),
    seed := some 0, width := none, height := none }

/-- An observer callback that consumes every event. -/
def wCbOk : WsCallback Nat := fun _ => Except.ok ()

/-- An observer callback that always throws. -/
def wCbBad : WsCallback Nat := fun _ => Except.error "boom"

end Dimpressionist

namespace Dimpressionist

/-! ### Helper lemmas about the character-list utilities -/

theorem chopStart_append (p r : List Char) : chopStart p (p ++ r) = some r := by
  induction p with
  | nil => rfl
  | cons a p ih => simp [chopStart, ih]

theorem chopStart_eq_some {p l r : List Char} (h : chopStart p l = some r) : l = p ++ r := by
  induction p generalizing l with
  | nil => simpa [chopStart] using h
  | cons a p ih =>
    cases l with
    | nil => simp [chopStart] at h
    | cons b l =>
      by_cases hab : a = b
      · subst hab
        simp only [chopStart, if_pos rfl] at h
        simp [ih h]
      · simp [chopStart, hab] at h

theorem chopStart_cons_ne {a b : Char} (p l : List Char) (h : ¬ a = b) :
    chopStart (a :: p) (b :: l) = none := by
  simp [chopStart, h]

theorem chopEnd_eq_some {s l y : List Char} (h : chopEnd s l = some y) : l = y ++ s := by
  unfold chopEnd at h
  cases h1 : chopStart s.reverse l.reverse with
  | none => rw [h1] at h; simp at h
  | some r =>
    rw [h1] at h
    obtain rfl : r.reverse = y := by simpa using h
    have h2 := chopStart_eq_some h1
    calc l = l.reverse.reverse := (List.reverse_reverse l).symm
    _ = (s.reverse ++ r).reverse := by rw [h2]
    _ = r.reverse ++ s := by rw [List.reverse_append, List.reverse_reverse]

theorem hasTail_append (s a : List Char) : hasTail s (a ++ s) = true := by
  simp [hasTail, List.reverse_append, chopStart_append]

theorem commaChop_append {a : List Char} (h : ',' ∉ a) (b : List Char) :
    commaChop (a ++ ',' :: b) = some b := by
  induction a with
  | nil => simp [commaChop]
  | cons c a ih =>
    have hc : ¬ c = ',' := by
      intro hc; exact h (hc ▸ List.mem_cons_self c a)
    have ha : ',' ∉ a := fun hm => h (List.mem_cons_of_mem c hm)
    simp [commaChop, hc, ih ha]

theorem consHead_append (a : Char) (l₁ l₂ : List (List Char)) (h : l₁ ≠ []) :
    consHead a (l₁ ++ l₂) = consHead a l₁ ++ l₂ := by
  cases l₁ with
  | nil => exact absurd rfl h
  | cons w ws => simp [consHead]

theorem splitChar_ne_nil (c : Char) (l : List Char) : splitChar c l ≠ [] := by
  induction l with
  | nil => simp [splitChar]
  | cons a l ih =>
    by_cases ha : a = c
    · simp [splitChar, ha]
    · simp only [splitChar, if_neg ha]
      cases hl : splitChar c l with
      | nil => exact absurd hl ih
      | cons w ws => simp [consHead]

theorem splitChar_append (c : Char) (a b : List Char) :
    splitChar c (a ++ c :: b) = splitChar c a ++ splitChar c b := by
  induction a with
  | nil => simp [splitChar]
  | cons x a ih =>
    by_cases hx : x = c
    · subst hx
      simp [splitChar, ih]
    · simp [splitChar, hx, ih, consHead_append x _ _ (splitChar_ne_nil c a)]

theorem splitChar_no_sep {c : Char} {l : List Char} (h : c ∉ l) : splitChar c l = [l] := by
  induction l with
  | nil => rfl
  | cons a l ih =>
    have ha : ¬ a = c := by
      intro hac; exact h (hac ▸ List.mem_cons_self a l)
    have hl : c ∉ l := fun hm => h (List.mem_cons_of_mem a hm)
    simp [splitChar, ha, ih hl, consHead]

/-! ### Helper lemmas about the style rule -/

theorem styleMatch_shape {lm y : List Char} (h : styleMatch lm = some y) :
    (lm = "change to ".toList ++ (y ++ " style".toList) ∨
     lm = "make it ".toList ++ (y ++ " style".toList)) ∧ y ≠ [] ∧ ',' ∉ y := by
  unfold styleMatch at h
  cases h1 : chopStart "change to ".toList lm with
  | some r =>
    simp only [h1] at h
    cases h2 : chopEnd " style".toList r with
    | none => simp only [h2] at h; exact Option.noConfusion h
    | some y' =>
      simp only [h2] at h
      by_cases hcond : y' ≠ [] ∧ ',' ∉ y'
      · rw [if_pos hcond] at h
        obtain rfl : y' = y := by simpa using h
        refine ⟨Or.inl ?_, hcond.1, hcond.2⟩
        rw [chopStart_eq_some h1, chopEnd_eq_some h2]
      · rw [if_neg hcond] at h; exact Option.noConfusion h
  | none =>
    simp only [h1] at h
    cases h1' : chopStart "make it ".toList lm with
    | none => simp only [h1'] at h; exact Option.noConfusion h
    | some r =>
      simp only [h1'] at h
      cases h2 : chopEnd " style".toList r with
      | none => simp only [h2] at h; exact Option.noConfusion h
      | some y' =>
        simp only [h2] at h
        by_cases hcond : y' ≠ [] ∧ ',' ∉ y'
        · rw [if_pos hcond] at h
          obtain rfl : y' = y := by simpa using h
          refine ⟨Or.inr ?_, hcond.1, hcond.2⟩
          rw [chopStart_eq_some h1', chopEnd_eq_some h2]
        · rw [if_neg hcond] at h; exact Option.noConfusion h

theorem colorMatch_none_of_style {lm y : List Char} (h : styleMatch lm = some y) :
    colorMatch lm = none := by
  obtain ⟨hshape, _, _⟩ := styleMatch_shape h
  cases hshape with
  | inl hc =>
    have e1 : lm = 'c' :: ("hange to ".toList ++ (y ++ " style".toList)) := by rw [hc]; rfl
    have hnone : chopStart "make ".toList lm = none := by
      rw [e1]
      exact chopStart_cons_ne _ _ (by decide)
    simp only [colorMatch, hnone]
  | inr hm =>
    have e1 : lm = "make ".toList ++ ("it ".toList ++ (y ++ " style".toList)) := by
      rw [hm]; rfl
    have h1 : chopStart "make ".toList lm =
        some ("it ".toList ++ (y ++ " style".toList)) := by
      rw [e1]; exact chopStart_append _ _
    have e2 : "it ".toList ++ (y ++ " style".toList) =
        'i' :: ("t ".toList ++ (y ++ " style".toList)) := rfl
    have h2 : chopStart "the ".toList ("it ".toList ++ (y ++ " style".toList)) = none := by
      rw [e2]; exact chopStart_cons_ne _ _ (by decide)
    have e3 : "it ".toList ++ (y ++ " style".toList) =
        ("it ".toList ++ y) ++ (' ' :: "style".toList) := by
      simp [List.append_assoc]
    have hsplit : splitChar ' ' ("it ".toList ++ (y ++ " style".toList)) =
        splitChar ' ' ("it ".toList ++ y) ++ ["style".toList] := by
      rw [e3, splitChar_append, splitChar_no_sep (by decide : ' ' ∉ "style".toList)]
    have hlast : (splitChar ' ' ("it ".toList ++ (y ++ " style".toList))).getLastD [] =
        "style".toList := by
      rw [hsplit]; exact List.getLastD_concat _ _ _
    have hcond : ¬ ((splitChar ' ' ("it ".toList ++ (y ++ " style".toList))).getLastD []
        ∈ colorWords ∧
        2 ≤ (splitChar ' ' ("it ".toList ++ (y ++ " style".toList))).length) := by
      rw [hlast]
      intro hcc
      exact (by decide : "style".toList ∉ colorWords) hcc.1
    simp only [colorMatch, h1, h2]
    rw [if_neg hcond]

theorem addMatch_none_of_style {lm y : List Char} (h : styleMatch lm = some y) :
    addMatch lm = none := by
  obtain ⟨hshape, _, _⟩ := styleMatch_shape h
  cases hshape with
  | inl hc =>
    have e1 : lm = 'c' :: ("hange to ".toList ++ (y ++ " style".toList)) := by rw [hc]; rfl
    unfold addMatch
    rw [e1]
    exact chopStart_cons_ne _ _ (by decide)
  | inr hm =>
    have e1 : lm = 'm' :: ("ake it ".toList ++ (y ++ " style".toList)) := by rw [hm]; rfl
    unfold addMatch
    rw [e1]
    exact chopStart_cons_ne _ _ (by decide)

theorem rewriteL_style {m y : List Char} (h : styleMatch (lowerL m) = some y)
    (p : List Char) : rewriteL p m = ⟨styleApply p y, false⟩ := by
  simp [rewriteL, colorMatch_none_of_style h, addMatch_none_of_style h, h]

theorem stripStyle_styleApply (p y : List Char) (hy : ',' ∉ y) :
    stripStyle (styleApply p y) = stripStyle p := by
  have hq : styleApply p y =
      stripStyle p ++ ',' :: (' ' :: (y ++ (' ' :: "style".toList))) := by
    simp [styleApply, List.append_assoc]
  have ht : hasTail " style".toList (styleApply p y) = true := by
    have e : styleApply p y = (stripStyle p ++ (',' :: ' ' :: y)) ++ " style".toList := by
      rw [hq]; simp [List.append_assoc]
    rw [e]; exact hasTail_append _ _
  have hnc0 : ',' ∉ (' ' :: (y ++ (' ' :: "style".toList))) := by
    intro hc
    rcases List.mem_cons.mp hc with h' | h'
    · exact (by decide : (',' : Char) ≠ ' ') h'
    · rcases List.mem_append.mp h' with h'' | h''
      · exact hy h''
      · rcases List.mem_cons.mp h'' with h3 | h3
        · exact (by decide : (',' : Char) ≠ ' ') h3
        · exact (by decide : ',' ∉ "style".toList) h3
  have hnc : ',' ∉ (' ' :: (y ++ (' ' :: "style".toList))).reverse := by
    simpa [List.mem_reverse] using hnc0
  have hrev : (styleApply p y).reverse =
      (' ' :: (y ++ (' ' :: "style".toList))).reverse ++ ',' :: (stripStyle p).reverse := by
    rw [hq, List.reverse_append, List.reverse_cons]
    simp [List.append_assoc]
  have hdrop : dropLastClause (styleApply p y) = some (stripStyle p) := by
    unfold dropLastClause
    rw [hrev, commaChop_append hnc]
    simp
  have hred : stripStyle (styleApply p y) =
      (match dropLastClause (styleApply p y) with
       | some q => q
       | none => styleApply p y) := by
    unfold stripStyle
    rw [ht]
    exact if_pos rfl
  rw [hred, hdrop]

/-! ### Claim theorems -/

/-- Claim C1: seed stability of refinement — every successful refine
appends a REFINEMENT record whose seed equals the seed of the parent
record (the current record at call time); the refine request
(`RefineParams`, mirroring the body built by `APIClient.refine`) carries
no seed field that could override it. -/
theorem refine_seed_stability (s : EngineState) (m : String) (rp : RefineParams)
    (res : CollabOutcome) (s' : EngineState) (rec0 : GenerationRecord)
    (h : refine s m rp res = (s', Except.ok rec0)) :
    ∃ cur, currentRecord s = some cur ∧ rec0.seed = cur.seed ∧
      rec0.parentId = some cur.id ∧ rec0.kind = RecordKind.refinement := by
  unfold refine at h
  by_cases hb : s.status = EngStatus.generating
  · rw [if_pos hb] at h
    exact absurd (congrArg Prod.snd h) (by simp)
  · rw [if_neg hb] at h
    cases hc : currentRecord s with
    | none =>
      simp only [hc] at h
      exact absurd (congrArg Prod.snd h) (by simp)
    | some cur =>
      simp only [hc] at h
      by_cases hv : validRefineParams m rp
      · rw [if_pos hv] at h
        cases res with
        | ok imageRef seedUsed durationMs =>
          simp only [Prod.mk.injEq, Except.ok.injEq] at h
          refine ⟨cur, rfl, ?_, ?_, ?_⟩ <;> rw [← h.2]
        | fail code msg =>
          exact absurd (congrArg Prod.snd h) (by simp)
      · rw [if_neg hv] at h
        exact absurd (congrArg Prod.snd h) (by simp)

/-- Claim C1 witness: a concrete successful refinement of `sesOne`
reuses the parent seed 42. -/
theorem refine_seed_stability_witness :
    ∃ cur, currentRecord sesOne = some cur ∧ recRef1.seed = cur.seed ∧
      recRef1.parentId = some cur.id ∧ recRef1.kind = RecordKind.refinement :=
  refine_seed_stability sesOne "add a hat" rpOk (CollabOutcome.ok "img2.png" 7 800)
    sesTwo recRef1 (by
      have hv : validRefineParams "add a hat" rpOk := by
        unfold validRefineParams rpOk
        refine ⟨by decide, by decide, by decide, by decide, ?_, ?_, ?_, ?_⟩ <;> norm_num
      unfold refine
      rw [if_neg (by decide : ¬ sesOne.status = EngStatus.generating)]
      simp only [show currentRecord sesOne = some recNew0 from rfl]
      rw [if_pos hv]
      rfl)

/-- Claim C2: busy exclusion — while a generation is in flight the front
end dispatches nothing (`handleGenerate` returns the state unchanged with
no request), and the engine rejects both `generateNew` and `refine` with
`Busy`, leaving the session state (records, currentId) unchanged,
independently of any collaborator outcome. -/
theorem busy_exclusion (st : AppState) (s : EngineState) (prompt m : String)
    (gp : GenParams) (rp : RefineParams) (res res' : CollabOutcome)
    (hst : st.isGenerating = true) (hs : s.status = EngStatus.generating) :
    handleGenerate st = (st, none) ∧
    generateNew s prompt gp res = (s, Except.error EngError.busy) ∧
    refine s m rp res' = (s, Except.error EngError.busy) := by
  refine ⟨?_, ?_, ?_⟩
  · unfold handleGenerate
    rw [if_pos (Or.inr hst)]
  · unfold generateNew
    rw [if_pos hs]
  · unfold refine
    rw [if_pos hs]

/-- Claim C2 witness: concrete busy front-end and engine states. -/
theorem busy_exclusion_witness :
    handleGenerate appBusy = (appBusy, none) ∧
    generateNew sesBusy "a dog" gpBad (CollabOutcome.ok "x.png" 1 1) =
      (sesBusy, Except.error EngError.busy) ∧
    refine sesBusy "add a hat" rpOk (CollabOutcome.ok "x.png" 1 1) =
      (sesBusy, Except.error EngError.busy) :=
  busy_exclusion appBusy sesBusy "a dog" "add a hat" gpBad rpOk _ _ (by decide) (by decide)

/-- Claim C3: refine precondition — on a session with no current record
an (idle) refine call fails with `NoCurrentImage` and appends nothing,
and the front end never dispatches a refine request without a current
image. -/
theorem refine_requires_current (s : EngineState) (m : String) (rp : RefineParams)
    (res : CollabOutcome) (st : AppState)
    (hidle : s.status = EngStatus.idle) (hnone : currentRecord s = none)
    (hci : st.currentImage = none) :
    refine s m rp res = (s, Except.error EngError.noCurrentImage) ∧
    isRefineReq (handleGenerate st).2 = false := by
  constructor
  · unfold refine
    rw [if_neg (by rw [hidle]; exact fun hc => EngStatus.noConfusion hc)]
    simp only [hnone]
  · unfold handleGenerate
    by_cases hcond : st.promptInput.trim = "" ∨ st.isGenerating = true
    · rw [if_pos hcond]
      rfl
    · rw [if_neg hcond]
      simp only [hci]
      rfl

/-- Claim C3 witness: refine on the empty session and the empty-session
front end. -/
theorem refine_requires_current_witness :
    refine sesEmpty "add a hat" rpOk (CollabOutcome.ok "x.png" 1 1) =
      (sesEmpty, Except.error EngError.noCurrentImage) ∧
    isRefineReq (handleGenerate appEmpty).2 = false :=
  refine_requires_current sesEmpty "add a hat" rpOk (CollabOutcome.ok "x.png" 1 1)
    appEmpty (by decide) (by decide) (by decide)

/-- Claim C4: parameter validation — with the engine idle (and, for
refine, a current record present), out-of-range parameters are rejected
with `InvalidParameters` and the session state is returned untouched:
the value is never clamped into range, the call simply fails before any
state transition. -/
theorem invalid_params_rejected (s : EngineState) (prompt m : String)
    (gp : GenParams) (rp : RefineParams) (res res' : CollabOutcome)
    (cur : GenerationRecord)
    (hidle : s.status = EngStatus.idle)
    (hcur : currentRecord s = some cur)
    (hbadN : ¬ validNewParams prompt gp)
    (hbadR : ¬ validRefineParams m rp) :
    generateNew s prompt gp res = (s, Except.error EngError.invalidParameters) ∧
    refine s m rp res' = (s, Except.error EngError.invalidParameters) := by
  have hns : ¬ s.status = EngStatus.generating := by
    rw [hidle]; exact fun hc => EngStatus.noConfusion hc
  constructor
  · unfold generateNew
    rw [if_neg hns, if_neg hbadN]
  · unfold refine
    rw [if_neg hns]
    simp only [hcur]
    rw [if_neg hbadR]

/-- Claim C4 witness: steps 5 and strength 2.0 are rejected on a
concrete idle session. -/
theorem invalid_params_rejected_witness :
    generateNew sesOne "a dog" gpBad (CollabOutcome.ok "x.png" 1 1) =
      (sesOne, Except.error EngError.invalidParameters) ∧
    refine sesOne "add a hat" rpBad (CollabOutcome.ok "x.png" 1 1) =
      (sesOne, Except.error EngError.invalidParameters) :=
  invalid_params_rejected sesOne "a dog" "add a hat" gpBad rpBad
    (CollabOutcome.ok "x.png" 1 1) (CollabOutcome.ok "x.png" 1 1) recNew0
    (by decide) rfl (by decide) (by decide)

/-- Claim C5: style-rule idempotence — for every prompt and every
modification matching the style-change patterns ("change to Y style" /
"make it Y style", case-insensitively), applying the rewrite twice
equals applying it once: the result has a single trailing style clause. -/
theorem style_rewrite_idempotent (p m : String) (y : List Char)
    (h : styleMatch (lowerL m.toList) = some y) :
    interpret (interpret p m).1 m = interpret p m := by
  have hy : ',' ∉ y := (styleMatch_shape h).2.2
  have h1 : rewriteL p.toList m.toList = ⟨styleApply p.toList y, false⟩ :=
    rewriteL_style h p.toList
  have h2 : rewriteL (styleApply p.toList y) m.toList =
      ⟨styleApply (styleApply p.toList y) y, false⟩ :=
    rewriteL_style h (styleApply p.toList y)
  have h3 : styleApply (styleApply p.toList y) y = styleApply p.toList y := by
    calc styleApply (styleApply p.toList y) y
        = stripStyle (styleApply p.toList y) ++ ", ".toList ++ y ++ " style".toList := rfl
    _ = stripStyle p.toList ++ ", ".toList ++ y ++ " style".toList := by
        rw [stripStyle_styleApply _ _ hy]
    _ = styleApply p.toList y := rfl
  unfold interpret
  rw [h1]
  have h4 : (String.mk (styleApply p.toList y)).toList = styleApply p.toList y := rfl
  rw [h4, h2, h3]

/-- Claim C5 witness: the spec's own example — re-applying "change to
watercolor style" to "a cat, old style" is idempotent. -/
theorem style_rewrite_idempotent_witness :
    styleMatch (lowerL ("change to watercolor style").toList) =
      some "watercolor".toList ∧
    interpret (interpret "a cat, old style" "change to watercolor style").1
        "change to watercolor style" =
      interpret "a cat, old style" "change to watercolor style" :=
  ⟨by decide,
   style_rewrite_idempotent "a cat, old style" "change to watercolor style"
     "watercolor".toList (by decide)⟩

/-- Claim C6: the spec's worked rewrite examples — the color-replacement
rule turns "a blue ball on green grass" with "make the ball red" into
"a red ball on green grass", and the addition rule turns "a cat" with
"add a hat" into "a cat, a hat". -/
theorem rewrite_examples :
    (interpret "a blue ball on green grass" "make the ball red").1 =
      "a red ball on green grass" ∧
    (interpret "a cat" "add a hat").1 = "a cat, a hat" := by
  constructor
  · decide
  · decide

/-- Claim C7: clear semantics — `clear()` empties the records, resets
the current pointer to null and returns the prior record count; the
front end's clear handler likewise resets its current image and history. -/
theorem clear_semantics (s : EngineState) (st : AppState) :
    (clearSession s).1.records = [] ∧ (clearSession s).1.currentId = none ∧
    (clearSession s).2 = s.records.length ∧
    (handleClear st).currentImage = none ∧ (handleClear st).history = [] :=
  ⟨rfl, rfl, rfl, rfl, rfl⟩

/-- Claim C8: observer isolation — `_emit` attempts delivery to every
registered callback; a throwing callback produces exactly one logged
error (not retried) and does not prevent delivery to the callbacks after
it. -/
theorem emit_isolation (pre post : List (WsCallback Nat)) (cb : WsCallback Nat)
    (d : Nat) (e : String) (h : cb d = Except.error e) :
    wsEmit (pre ++ cb :: post) d =
      wsEmit pre d ++ EmitResult.errorLogged e :: wsEmit post d ∧
    (wsEmit (pre ++ cb :: post) d).length = pre.length + 1 + post.length := by
  constructor
  · simp [wsEmit, attemptCallback, h]
  · simp [wsEmit]
    omega

/-- Claim C8 witness: a throwing callback between two healthy ones is
logged while both neighbours still receive the event. -/
theorem emit_isolation_witness :
    wCbBad 0 = Except.error "boom" ∧
    (wsEmit ([wCbOk] ++ wCbBad :: [wCbOk]) 0 =
       wsEmit [wCbOk] 0 ++ EmitResult.errorLogged "boom" :: wsEmit [wCbOk] 0 ∧
     (wsEmit ([wCbOk] ++ wCbBad :: [wCbOk]) 0).length = 1 + 1 + 1) :=
  ⟨rfl, emit_isolation [wCbOk] [wCbOk] wCbBad 0 "boom" rfl⟩

/-- Claim C9: falsy coercion in `APIClient.generateNew` — a seed of 0
(or an absent seed) is sent as null, steps 0 is replaced by the default
28 and guidanceScale 0 by 3.5, instead of being sent and rejected. -/
theorem falsy_param_coercion (prompt : String) (p₁ p₂ p₃ : ClientParams)
    (h₁ : p₁.seed = some 0 ∨ p₁.seed = none)
    (h₂ : p₂.steps = some 0)
    (h₃ : p₃.guidanceScale = some 0) :
    (generateNewBody prompt p₁).seed = none ∧
    (generateNewBody prompt p₂).steps = 28 ∧
    (generateNewBody prompt p₃).guidance_scale = 3.5 := by
  refine ⟨?_, ?_, ?_⟩
  · obtain h | h := h₁ <;> simp [generateNewBody, jsSeedOr, h]
  · simp [generateNewBody, jsIntOr, h₂]
  · simp [generateNewBody, jsRatOr, h₃]

/-- Claim C9 witness: an explicitly requested seed 0, steps 0 and
guidanceScale 0 are all silently replaced. -/
theorem falsy_param_coercion_witness :
    (cpSeedZero.seed = some 0 ∨ cpSeedZero.seed = none) ∧
    cpSeedZero.steps = some 0 ∧ cpSeedZero.guidanceScale = some 0 ∧
    ((generateNewBody "a cat" cpSeedZero).seed = none ∧
     (generateNewBody "a cat" cpSeedZero).steps = 28 ∧
     (generateNewBody "a cat" cpSeedZero).guidance_scale = 3.5) :=
  ⟨Or.inl rfl, rfl, rfl,
   falsy_param_coercion "a cat" cpSeedZero cpSeedZero cpSeedZero (Or.inl rfl) rfl rfl⟩

/-- Claim C10: bounded exponential reconnect — in every reachable
handler state the attempt counter is at most 5; while below the bound a
disconnect schedules the (k+1)-th attempt after 1000·2^k milliseconds,
at the bound no further attempt is scheduled, and a successful open
resets the counter and re-sends the subscribe message for the
"generation_progress" channel. -/
theorem reconnect_bounded (s : WSState) (hrs : WsReachable s) (k : Nat)
    (hk : s.reconnectAttempts = k) :
    s.reconnectAttempts ≤ 5 ∧
    (k < 5 → attemptReconnect s = (⟨k + 1⟩, some (1000 * 2 ^ k))) ∧
    (5 ≤ k → attemptReconnect s = (s, none)) ∧
    (wsOnOpen s).1.reconnectAttempts = 0 ∧
    (wsOnOpen s).2 = [WsClientMsg.subscribe "generation_progress"] := by
  refine ⟨?_, ?_, ?_, rfl, rfl⟩
  · clear hk
    induction hrs with
    | init => decide
    | step s e hs ih =>
      cases e with
      | opened => simp [wsStep, wsOnOpen]
      | closed =>
        show (attemptReconnect s).1.reconnectAttempts ≤ 5
        by_cases hge : wsMaxReconnectAttempts ≤ s.reconnectAttempts
        · simp only [attemptReconnect, if_pos hge]
          exact ih
        · simp only [attemptReconnect, if_neg hge]
          simp only [wsMaxReconnectAttempts] at hge
          omega
  · intro hlt
    unfold attemptReconnect
    rw [if_neg (by rw [hk]; simpa [wsMaxReconnectAttempts] using Nat.not_le.mpr hlt)]
    rw [hk]
    simp [wsReconnectDelay]
  · intro hge
    unfold attemptReconnect
    rw [if_pos (by rw [hk]; simpa [wsMaxReconnectAttempts] using hge)]

/-- Claim C10 witness: after two consecutive drops the handler has made
2 attempts and schedules the third after 4000 ms. -/
theorem reconnect_bounded_witness :
    (⟨2⟩ : WSState).reconnectAttempts ≤ 5 ∧
    (2 < 5 → attemptReconnect ⟨2⟩ = (⟨3⟩, some (1000 * 2 ^ 2))) ∧
    (5 ≤ 2 → attemptReconnect ⟨2⟩ = (⟨2⟩, none)) ∧
    (wsOnOpen ⟨2⟩).1.reconnectAttempts = 0 ∧
    (wsOnOpen ⟨2⟩).2 = [WsClientMsg.subscribe "generation_progress"] :=
  reconnect_bounded ⟨2⟩
    (WsReachable.step ⟨1⟩ WSEvent.closed
      (WsReachable.step ⟨0⟩ WSEvent.closed WsReachable.init)) 2 rfl

end Dimpressionist
